import Mathlib

/-!
Verification of the covariance-matrix auto-selection subsystem of cobaya
(`cobaya/cosmo_input/autoselect_covmat.py`): the candidate database cache,
the generic "filter-to-best-subset" scorer `get_best_score`, and the
multi-stage selector `get_best_covmat_ext`.

Shallow embedding conventions:
* A candidate record (a Python dict `{folder, name, params}`) becomes the
  structure `Covmat`.
* Python integers become `Int`; `len(...)` results are coerced `Nat`s.
* `np.max` over an array raises `ValueError` on an empty array; it is
  embedded as `npMax : List Int → Option Int`, `none` meaning the raise.
* A function that may raise returns an `Option`; a `none` result of an
  inner call propagates.
* File-system state (directory listings and the first line of each file)
  is passed explicitly as data; the pickled blob and the in-process memo
  map are passed explicitly as `Option (List Covmat)` values.
* The seeded random generator `np.random.default_rng(random_state)` is
  embedded as an explicit choice function `rng : Nat → Nat`, where
  `rng n` models `rng.choice(range(n))`; for a fixed non-`None` seed,
  numpy defines this function deterministically from the seed.
-/

set_option autoImplicit false

namespace AutoCovmat

/-- A candidate record of the covmat database:
`{"folder": folder_full, "name": filename, "params": params}`. -/
structure Covmat where
  folder : String
  name : String
  params : List String
deriving DecidableEq, Repr

/-- Embedding of `np.max` over `np.array(l)`: the maximum of the list, raising
(`none`) on an empty array. -/
def npMax : List Int → Option Int
  | [] => none
  | x :: xs => some (xs.foldl max x)

/-- Embedding of `get_best_score(covmats, score_func, min_score=None)`:

    scores = np.array([score_func(covmat) for covmat in covmats])
    if min_score is not None and np.max(scores) <= min_score:
        return []
    i_max = np.argwhere(scores == np.max(scores)).T[0]
    return [covmats[i] for i in i_max]

`none` models the `ValueError` raised by `np.max` on an empty `covmats`;
selecting the indices where the score equals the maximum, in increasing
index order, is the same as filtering the list by that score. -/
def get_best_score {α : Type} (covmats : List α) (score_func : α → Int)
    (min_score : Option Int) : Option (List α) :=
  match npMax (covmats.map score_func) with
  | none => none
  | some m =>
    if (match min_score with
        | some ms => decide (m ≤ ms)
        | none => false) then
      some []
    else
      some (covmats.filter (fun c => decide (score_func c = m)))

/-- Embedding of `score_params(covmat) = len(set(covmat["params"]).intersection(params_renames))`:
the number of distinct declared parameter names shared with the target
alias set (`params_renames`, a set embedded as a duplicate-free list). -/
def scoreParams (params_renames : List String) (c : Covmat) : Int :=
  ((c.params.dedup).filter (fun p => decide (p ∈ params_renames))).length

/-- The delimiter class `[_\.]` of the likelihood regexps. -/
def isDelim (c : Char) : Bool :=
  c == '_' || c == '.'

/-- The literal alias followed by a delimiter: `like` is a prefix of
`rest` and the character right after it is `_` or `.`. -/
def matchAfter (like rest : List Char) : Bool :=
  like.isPrefixOf rest &&
    (match rest.drop like.length with
     | d :: _ => isDelim d
     | [] => false)

/-- Embedding of `re.search` of the compiled pattern `[_\.]` + `re.escape(like)` + `[_\.]`
over a list of characters: somewhere in the text, a delimiter, then the
literal alias, then a delimiter. -/
def delimSearch (like : List Char) : List Char → Bool
  | [] => false
  | c :: rest => (isDelim c && matchAfter like rest) || delimSearch like rest

/-- Embedding of `re.compile(r"[_\.]" + re.escape(like) + r"[_\.]").search(name)`,
as a Boolean: does the pattern match anywhere in `name`? -/
def likeSearch (like : String) (name : String) : Bool :=
  delimSearch like.toList name.toList

/-- Embedding of `score_likes(covmat) = len([0 for r in likes_regexps if r.search(covmat["name"])])`:
the number of target likelihood aliases (the set `likes_renames`,
embedded as a duplicate-free list) whose delimited pattern matches the
file name of the candidate. -/
def scoreLikes (likes_renames : List String) (c : Covmat) : Int :=
  (likes_renames.filter (fun l => likeSearch l c.name)).length

/-- Embedding of `score_simpler_params(covmat) = -len(covmat["params"])`. -/
def scoreSimplerParams (c : Covmat) : Int :=
  -(c.params.length : Int)

/-- Python whitespace (`str.split()` / `str.strip()` default class): the
code points for which `str.isspace()` holds. -/
def pyIsSpace (c : Char) : Bool :=
  ([0x09, 0x0a, 0x0b, 0x0c, 0x0d, 0x1c, 0x1d, 0x1e, 0x1f, 0x20, 0x85,
    0xa0, 0x1680, 0x2000, 0x2001, 0x2002, 0x2003, 0x2004, 0x2005, 0x2006,
    0x2007, 0x2008, 0x2009, 0x200a, 0x2028, 0x2029, 0x202f, 0x205f,
    0x3000] : List UInt32).contains c.val

/-- Embedding of `str.split()` with no argument: split on runs of whitespace,
discarding empty words.  Accumulator `cur` holds the current word
reversed. -/
def splitWSAux (cur : List Char) : List Char → List (List Char)
  | [] => if cur.isEmpty then [] else [cur.reverse]
  | c :: cs =>
    if pyIsSpace c then
      if cur.isEmpty then splitWSAux [] cs
      else cur.reverse :: splitWSAux [] cs
    else splitWSAux (c :: cur) cs

/-- Embedding of `s.split()` for a string given as a character list. -/
def pySplit (s : List Char) : List String :=
  (splitWSAux [] s).map (fun w => String.mk w)

/-- Embedding of `score_simpler_name(covmat) =
-len(covmat["name"].replace("_", " ").replace("-", " ").split())`. -/
def nameTokens (s : String) : Nat :=
  (pySplit (s.toList.map (fun ch => if ch == '_' || ch == '-' then ' ' else ch))).length

/-- The score `score_simpler_name` as an `Int`. -/
def scoreSimplerName (c : Covmat) : Int :=
  -(nameTokens c.name : Int)

/-- Embedding of `get_best_covmat_ext`, downstream of the database load
and of the construction of the two alias sets.  The database
(`covmats_database`) is the result of `get_covmat_database_at_paths`;
`params_renames` is the set `set(chain(*[[p] + renames ...]))` of target
parameter names and their rename aliases, and `likes_renames` the set of
target likelihood names and their aliases (both built by library helpers
outside this module and embedded as duplicate-free lists); `rng n`
models `np.random.default_rng(random_state).choice(range(n))`.

The `none` arms of the three inner `match`es on stages run with
`min_score = None` model a propagated `np.max` exception; they are
unreachable because each of those stages receives a non-empty list
(`get_best_score_ne_of_no_min` below).  The final `.copy()` is the
identity on values. -/
def get_best_covmat_ext (covmats_database : List Covmat)
    (params_renames likes_renames : List String) (rng : Nat → Nat) :
    Option Covmat :=
  match covmats_database with
  | [] => none
  | c :: cs =>
    match get_best_score (c :: cs) (scoreParams params_renames) (some 0) with
    | none => none
    | some [] => none
    | some (b :: bs) =>
      match get_best_score (b :: bs) (scoreLikes likes_renames) none with
      | none => none
      | some best_p_l =>
        match get_best_score best_p_l scoreSimplerParams none with
        | none => none
        | some best_p_l_sp =>
          match get_best_score best_p_l_sp scoreSimplerName none with
          | none => none
          | some best => best[rng best.length]?

/-! ### Database cache (`get_covmat_database_at_paths`) -/

/-- One entry of a directory listing (`os.listdir`): its file name and,
when it can be opened and decoded as text, the first line returned by
`covmat.readline()` (with its trailing newline); `none` models an open
or decode failure caught by the bare `except`. -/
structure DirEntry where
  name : String
  firstLine : Option String
deriving DecidableEq, Repr

/-- One installed folder: its path and its directory listing. -/
structure Folder where
  path : String
  entries : List DirEntry
deriving DecidableEq, Repr

/-- Modelled from the spec: `Extension.covmat` (from `cobaya.conventions`,
not under the sources provided) is the matrix-file extension used by the
file-count staleness proxy, "matched by the .covmat extension". -/
def covmatExtension : String := ".covmat"

/-- Embedding of `s.endswith(suffix)` (`str.endswith`, one string argument). -/
def pyEndsWith (s suffix : String) : Bool :=
  suffix.toList.isSuffixOf s.toList

/-- The staleness proxy of the cache check:
`len(list(chain(*[[filename for filename in os.listdir(folder)
 if filename.endswith(Extension.covmat)] for folder in installed_folders])))`. -/
def numCovmatFiles (installed_folders : List Folder) : Nat :=
  ((installed_folders.map (fun folder =>
     (folder.entries.filter
       (fun e => pyEndsWith e.name covmatExtension)).length))).sum

/-- Strip Python whitespace from both ends of a character list
(`str.strip()`). -/
def stripChars (l : List Char) : List Char :=
  ((l.dropWhile pyIsSpace).reverse.dropWhile pyIsSpace).reverse

/-- Header handling of the rebuild scan:

    assert header.strip().startswith("#")
    params = header.strip().lstrip("#").split()

`none` models the `AssertionError` caught by the bare `except` (the
entry is skipped). -/
def parseHeader (header : String) : Option (List String) :=
  let stripped := stripChars header.toList
  if stripped.head? = some '#' then
    some (pySplit (stripped.dropWhile (fun c => c == '#')))
  else none

/-- The rebuild loop of `get_covmat_database_at_paths`: scan the listing of every folder, a
listing in order; an entry whose first line cannot be read or whose
stripped first line does not start with `#` is skipped (`continue`);
otherwise a record `{folder, name, params}` is appended. -/
def buildDatabase (installed_folders : List Folder) : List Covmat :=
  (installed_folders.map (fun folder =>
    folder.entries.filterMap (fun e =>
      (e.firstLine.bind parseHeader).map
        (fun ps => Covmat.mk folder.path e.name ps)))).flatten

/-- Embedding of `get_covmat_database_at_paths(installed_folders, cached)`.
The two cache tiers are passed explicitly: `memCache` is
`_loaded_covmats_database.get(_hash)` for the fingerprint of this folder
list (`none` when absent; Python's truthiness test also rejects an empty
list), and `blob` is the result of un-pickling the persisted file at the
fingerprint path (`none` when the file is missing, unreadable or fails
to deserialize).  A loaded blob is accepted only when the `.covmat`
file count over the folders equals its length (`assert num_files ==
len(covmat_database)`); any failure falls through to a full rebuild.
The writes back into the two tiers are side effects not needed by the
properties below and are omitted from the return value. -/
def get_covmat_database_at_paths (installed_folders : List Folder)
    (memCache : Option (List Covmat)) (blob : Option (List Covmat))
    (cached : Bool) : List Covmat :=
  if cached then
    match memCache with
    | some (c :: cs) => c :: cs
    | _ =>
      match blob with
      | some db =>
        if numCovmatFiles installed_folders = db.length then db
        else buildDatabase installed_folders
      | none => buildDatabase installed_folders
  else buildDatabase installed_folders

/-! ### Helper lemmas about `npMax` and `get_best_score` -/

theorem foldl_max_le_self (xs : List Int) (a : Int) : a ≤ xs.foldl max a := by
  induction xs generalizing a with
  | nil => exact le_refl a
  | cons x xs ih => exact le_trans (le_max_left a x) (ih (max a x))

theorem le_foldl_max (xs : List Int) (a : Int) (y : Int) (hy : y ∈ xs) :
    y ≤ xs.foldl max a := by
  induction xs generalizing a with
  | nil => cases hy
  | cons x xs ih =>
    rcases List.mem_cons.mp hy with rfl | h
    · exact le_trans (le_max_right a y) (foldl_max_le_self xs (max a y))
    · exact ih (max a x) h

theorem foldl_max_mem (xs : List Int) (a : Int) :
    xs.foldl max a = a ∨ xs.foldl max a ∈ xs := by
  induction xs generalizing a with
  | nil => exact Or.inl rfl
  | cons x xs ih =>
    rcases ih (max a x) with h | h
    · rcases max_choice a x with h2 | h2
      · exact Or.inl (by rw [List.foldl_cons, h, h2])
      · refine Or.inr ?_
        rw [List.foldl_cons, h, h2]
        exact List.mem_cons_self x xs
    · exact Or.inr (List.mem_cons_of_mem x h)

theorem npMax_mem {l : List Int} {m : Int} (h : npMax l = some m) : m ∈ l := by
  cases l with
  | nil => cases h
  | cons x xs =>
    cases h
    rcases foldl_max_mem xs x with h2 | h2
    · rw [h2]; exact List.mem_cons_self x xs
    · exact List.mem_cons_of_mem x h2

theorem npMax_le {l : List Int} {m : Int} (h : npMax l = some m) :
    ∀ y ∈ l, y ≤ m := by
  cases l with
  | nil => cases h
  | cons x xs =>
    cases h
    intro y hy
    rcases List.mem_cons.mp hy with rfl | h2
    · exact foldl_max_le_self xs y
    · exact le_foldl_max xs x y h2

theorem npMax_isSome {l : List Int} (h : l ≠ []) : ∃ m, npMax l = some m := by
  cases l with
  | nil => exact absurd rfl h
  | cons x xs => exact ⟨xs.foldl max x, rfl⟩

theorem npMax_all_eq {l : List Int} {a : Int} (hne : l ≠ [])
    (ha : ∀ y ∈ l, y = a) : npMax l = some a := by
  obtain ⟨m, hm⟩ := npMax_isSome hne
  rw [hm, ha m (npMax_mem hm)]

/-- With `min_score = None`, `get_best_score` over a non-empty list never
raises and never returns the empty list: the maximum is achieved.  This
is why the `none` and empty arms of the later stages of
`get_best_covmat_ext` are unreachable. -/
theorem get_best_score_ne_of_no_min {α : Type} (xs : List α) (f : α → Int)
    (hne : xs ≠ []) :
    ∃ l, get_best_score xs f none = some l ∧ l ≠ [] := by
  have hmapne : xs.map f ≠ [] := by
    intro h
    exact hne (List.map_eq_nil_iff.mp h)
  obtain ⟨m, hm⟩ := npMax_isSome hmapne
  refine ⟨xs.filter (fun c => decide (f c = m)), ?_, ?_⟩
  · unfold get_best_score
    rw [hm]
    rfl
  · obtain ⟨c, hc, hcm⟩ := List.mem_map.mp (npMax_mem hm)
    intro hempty
    have : c ∈ xs.filter (fun c => decide (f c = m)) :=
      List.mem_filter.mpr ⟨hc, by simp [hcm]⟩
    rw [hempty] at this
    cases this

/-! ### Concrete records used by scenarios and witnesses -/

/-- Record A of the two-record scenario. -/
def covA : Covmat := ⟨"d", "planck_lowl.covmat", ["x", "y"]⟩

/-- Record B of the two-record scenario. -/
def covB : Covmat := ⟨"d", "planck_lowl_highl.covmat", ["x", "y", "z"]⟩

/-! ### Claim theorems -/

/-- C1: with database `[A, B]` where `A = {params := [x, y], name :=
"planck_lowl.covmat"}` and `B = {params := [x, y, z], name :=
"planck_lowl_highl.covmat"}`, target parameters `{x, y}` (no renames)
and target likelihoods `{"lowl"}` (no aliases), both records survive the
parameter-overlap stage (intersection size 2 each) and the likelihood
stage (one delimited match of "lowl" each), and the fewer-declared-params
tie-break uniquely selects A, so `get_best_covmat_ext` returns A, for
every choice function `rng` that picks a valid index. -/
theorem two_record_scenario_selects_A (rng : Nat → Nat)
    (hrng : ∀ n, 0 < n → rng n < n) :
    get_best_score [covA, covB] (scoreParams ["x", "y"]) (some 0) =
        some [covA, covB] ∧
    scoreParams ["x", "y"] covA = 2 ∧ scoreParams ["x", "y"] covB = 2 ∧
    get_best_score [covA, covB] (scoreLikes ["lowl"]) none =
        some [covA, covB] ∧
    scoreLikes ["lowl"] covA = 1 ∧ scoreLikes ["lowl"] covB = 1 ∧
    get_best_score [covA, covB] scoreSimplerParams none = some [covA] ∧
    get_best_covmat_ext [covA, covB] ["x", "y"] ["lowl"] rng = some covA := by
  have h1 : rng 1 = 0 := Nat.lt_one_iff.mp (hrng 1 Nat.one_pos)
  refine ⟨by decide, by decide, by decide, by decide, by decide, by decide,
    by decide, ?_⟩
  have hext : get_best_covmat_ext [covA, covB] ["x", "y"] ["lowl"] rng =
      [covA][rng 1]? := rfl
  rw [hext, h1]
  rfl

/-- Witness for C1 at the identity-free concrete choice function that
always picks index 0. -/
theorem two_record_scenario_selects_A_witness :
    get_best_covmat_ext [covA, covB] ["x", "y"] ["lowl"] (fun _ => 0) =
      some covA :=
  (two_record_scenario_selects_A (fun _ => 0) (fun _ hn => hn)).2.2.2.2.2.2.2

/-- C3 counterexample: `get_best_score` on the empty candidate list does
not return the empty result; `np.max` of the empty score array raises
`ValueError` (embedded as `none`). -/
theorem get_best_score_empty_raises :
    get_best_score ([] : List Covmat) (fun _ => (0 : Int)) none = none ∧
    get_best_score ([] : List Covmat) (fun _ => (0 : Int)) none ≠ some [] ∧
    get_best_score ([] : List Covmat) (fun _ => (0 : Int)) (some 0) = none := by
  refine ⟨rfl, ?_, rfl⟩
  intro h
  cases h

/-- C5: in the likelihood-match stage, when the file name of no surviving
candidate matches any target likelihood alias pattern, the stage returns the
entire input list unchanged: every score is zero, so every candidate
attains the maximum, and no `min_score` is applied. -/
theorem zero_like_scores_keep_all (best_p : List Covmat) (hne : best_p ≠ [])
    (likes_renames : List String)
    (h : ∀ c ∈ best_p, ∀ l ∈ likes_renames, likeSearch l c.name = false) :
    get_best_score best_p (scoreLikes likes_renames) none = some best_p := by
  have hscore : ∀ c ∈ best_p, scoreLikes likes_renames c = 0 := by
    intro c hc
    unfold scoreLikes
    rw [List.filter_eq_nil_iff.mpr (fun l hl => by simp [h c hc l hl])]
    rfl
  have hmapne : best_p.map (scoreLikes likes_renames) ≠ [] := by
    intro hx
    exact hne (List.map_eq_nil_iff.mp hx)
  have hm : npMax (best_p.map (scoreLikes likes_renames)) = some 0 := by
    refine npMax_all_eq hmapne ?_
    intro y hy
    obtain ⟨c, hc, rfl⟩ := List.mem_map.mp hy
    exact hscore c hc
  unfold get_best_score
  rw [hm]
  have hfilter :
      best_p.filter (fun c => decide (scoreLikes likes_renames c = 0)) =
        best_p :=
    List.filter_eq_self.mpr (fun c hc => by simp [hscore c hc])
  simpa using hfilter

/-- Witness for C5: a singleton candidate list where the alias "xx"
matches nothing. -/
theorem zero_like_scores_keep_all_witness :
    get_best_score [covA] (scoreLikes ["xx"]) none = some [covA] :=
  zero_like_scores_keep_all [covA] (by decide) ["xx"] (by decide)

/-- C6: `get_best_covmat_ext` is a deterministic function of its inputs:
with the seeded random generator embedded as the choice function `rng`
(np.random.default_rng of a fixed non-None seed is a deterministic
function of the seed), two invocations whose choice functions agree
pointwise — in particular two invocations with the same seed — return
equal results, including the same random tie-break pick. -/
theorem best_covmat_deterministic (db : List Covmat)
    (params_renames likes_renames : List String) (rng1 rng2 : Nat → Nat)
    (h : ∀ n, rng1 n = rng2 n) :
    get_best_covmat_ext db params_renames likes_renames rng1 =
      get_best_covmat_ext db params_renames likes_renames rng2 := by
  rw [funext h]

/-- Witness for C6 at a concrete database and choice function. -/
theorem best_covmat_deterministic_witness :
    get_best_covmat_ext [covA, covB] ["x", "y"] ["lowl"] (fun _ => 0) =
      get_best_covmat_ext [covA, covB] ["x", "y"] ["lowl"] (fun n => n - n) :=
  best_covmat_deterministic [covA, covB] ["x", "y"] ["lowl"]
    (fun _ => 0) (fun n => n - n) (fun n => (Nat.sub_self n).symm)

/-- C10: the likelihood pattern `[_\.]alias[_\.]` requires a delimiter
strictly before and strictly after the alias, so an alias occurring at
the very beginning or very end of a file name contributes nothing:
"lowl" does not match "lowl.covmat" (nothing precedes it) nor
"planck_lowl" (nothing follows it), while it does match
"planck_lowl.covmat"; hence the likelihood score of "lowl.covmat"
against the target set {"lowl"} is 0. -/
theorem like_pattern_needs_delimiters :
    likeSearch "lowl" "lowl.covmat" = false ∧
    likeSearch "lowl" "planck_lowl" = false ∧
    likeSearch "lowl" "planck_lowl.covmat" = true ∧
    scoreLikes ["lowl"] ⟨"dir", "lowl.covmat", ["x", "y"]⟩ = 0 := by
  decide

/-- C2: whenever `get_best_score` returns a non-empty result, that result
is exactly the subsequence of the input candidates whose score equals
the maximum score over the list, in their original input order (a
filter, hence a sublist); the function is pure, so equal inputs give
equal results. -/
theorem get_best_score_max_filter {α : Type} (covmats : List α)
    (f : α → Int) (min_score : Option Int) (l : List α)
    (h1 : get_best_score covmats f min_score = some l) (h2 : l ≠ []) :
    ∃ m, npMax (covmats.map f) = some m ∧
      (∃ c ∈ covmats, f c = m) ∧ (∀ c ∈ covmats, f c ≤ m) ∧
      l = covmats.filter (fun c => decide (f c = m)) ∧
      l.Sublist covmats := by
  unfold get_best_score at h1
  split at h1
  · cases h1
  next m hm =>
    split at h1
    · cases h1
      exact absurd rfl h2
    · cases h1
      obtain ⟨c, hc, hcm⟩ := List.mem_map.mp (npMax_mem hm)
      refine ⟨m, hm, ⟨c, hc, hcm⟩, ?_, rfl, List.filter_sublist _⟩
      intro c' hc'
      exact npMax_le hm (f c') (List.mem_map_of_mem f hc')

/-- Witness for C2 at the fewer-params stage of the two-record scenario. -/
theorem get_best_score_max_filter_witness :
    ∃ m, npMax ([covA, covB].map scoreSimplerParams) = some m ∧
      (∃ c ∈ [covA, covB], scoreSimplerParams c = m) ∧
      (∀ c ∈ [covA, covB], scoreSimplerParams c ≤ m) ∧
      [covA] = [covA, covB].filter (fun c => decide (scoreSimplerParams c = m)) ∧
      List.Sublist [covA] [covA, covB] :=
  get_best_score_max_filter [covA, covB] scoreSimplerParams none [covA]
    (by decide) (by decide)

/-- C3 amended: on the empty candidate list `get_best_score` raises
(`np.max` of an empty array; embedded as `none`) instead of returning
the empty result, with or without a `min_score`; for every non-empty
candidate list, the result with `min_score = M` is the empty list if and
only if the maximum score is at most `M`. -/
theorem get_best_score_empty_and_min {α : Type} (f : α → Int) (M : Int)
    (xs : List α) (hne : xs ≠ []) :
    get_best_score ([] : List α) f (some M) = none ∧
    get_best_score ([] : List α) f none = none ∧
    (get_best_score xs f (some M) = some [] ↔
      ∃ m, npMax (xs.map f) = some m ∧ m ≤ M) := by
  refine ⟨rfl, rfl, ?_⟩
  have hmapne : xs.map f ≠ [] := fun hx => hne (List.map_eq_nil_iff.mp hx)
  obtain ⟨m, hm⟩ := npMax_isSome hmapne
  have hshow : get_best_score xs f (some M) =
      (if decide (m ≤ M) = true then some []
       else some (xs.filter (fun c => decide (f c = m)))) := by
    unfold get_best_score
    rw [hm]
  rw [hshow]
  by_cases hle : m ≤ M
  · rw [if_pos (by simpa using hle)]
    exact ⟨fun _ => ⟨m, hm, hle⟩, fun _ => rfl⟩
  · rw [if_neg (by simpa using hle)]
    constructor
    · intro hfil
      obtain ⟨c, hc, hcm⟩ := List.mem_map.mp (npMax_mem hm)
      have hmem : c ∈ xs.filter (fun c => decide (f c = m)) :=
        List.mem_filter.mpr ⟨hc, by simp [hcm]⟩
      rw [Option.some.injEq] at hfil
      rw [hfil] at hmem
      cases hmem
    · rintro ⟨m', hm', hle'⟩
      rw [hm] at hm'
      cases hm'
      exact absurd hle' hle

/-- Witness for the amended statement of C3: with one candidate of score `-2`
and minimum score `0`, the result is empty, matching the maximum being
at most the minimum. -/
theorem get_best_score_empty_and_min_witness :
    get_best_score ([] : List Covmat) scoreSimplerParams (some 0) = none ∧
    get_best_score ([] : List Covmat) scoreSimplerParams none = none ∧
    (get_best_score [covA] scoreSimplerParams (some 0) = some [] ↔
      ∃ m, npMax ([covA].map scoreSimplerParams) = some m ∧ m ≤ 0) :=
  get_best_score_empty_and_min scoreSimplerParams 0 [covA] (by decide)

/-- C4: when the declared parameters of every candidate are disjoint from the
target alias set (so every parameter-overlap score is zero), the
selector returns `none` rather than raising, because the
parameter-overlap stage runs with `min_score = 0` and the maximum score
`0 ≤ 0` empties the stage. -/
theorem no_param_overlap_returns_none (db : List Covmat) (hne : db ≠ [])
    (params_renames likes_renames : List String) (rng : Nat → Nat)
    (h : ∀ c ∈ db, ∀ p ∈ c.params, p ∉ params_renames) :
    get_best_covmat_ext db params_renames likes_renames rng = none := by
  have hscore : ∀ c ∈ db, scoreParams params_renames c = 0 := by
    intro c hc
    unfold scoreParams
    rw [List.filter_eq_nil_iff.mpr
      (fun p hp => by simp [h c hc p (List.mem_dedup.mp hp)])]
    rfl
  have hm : npMax (db.map (scoreParams params_renames)) = some 0 := by
    refine npMax_all_eq (fun hx => hne (List.map_eq_nil_iff.mp hx)) ?_
    intro y hy
    obtain ⟨c, hc, rfl⟩ := List.mem_map.mp hy
    exact hscore c hc
  have hbs : get_best_score db (scoreParams params_renames) (some 0) =
      some [] := by
    unfold get_best_score
    rw [hm]
    rfl
  cases db with
  | nil => exact absurd rfl hne
  | cons c cs =>
    simp only [get_best_covmat_ext, hbs]

/-- Witness for C4: one candidate whose parameters miss the single
target name entirely. -/
theorem no_param_overlap_returns_none_witness :
    get_best_covmat_ext [covA] ["q"] ["lowl"] (fun _ => 0) = none :=
  no_param_overlap_returns_none [covA] (by decide) ["q"] ["lowl"]
    (fun _ => 0) (by decide)

/-- C7: with caching enabled and the in-process tier empty for this
fingerprint, a loaded persisted blob is used only when the current
`.covmat` file count over the input folders equals the record count of the
blob; a count mismatch, as well as a failed read or deserialization
(`blob = none`), yields the full fresh rebuild `buildDatabase`, never a
partial repair. -/
theorem cache_count_validation (installed_folders : List Folder)
    (db : List Covmat) :
    (numCovmatFiles installed_folders ≠ db.length →
      get_covmat_database_at_paths installed_folders none (some db) true =
        buildDatabase installed_folders) ∧
    (get_covmat_database_at_paths installed_folders none none true =
      buildDatabase installed_folders) ∧
    (numCovmatFiles installed_folders = db.length →
      get_covmat_database_at_paths installed_folders none (some db) true =
        db) := by
  refine ⟨?_, rfl, ?_⟩
  · intro h
    show (if numCovmatFiles installed_folders = db.length then db
          else buildDatabase installed_folders) =
        buildDatabase installed_folders
    exact if_neg h
  · intro h
    show (if numCovmatFiles installed_folders = db.length then db
          else buildDatabase installed_folders) = db
    exact if_pos h

/-- Witness for C7: a blob built from a folder with two matrix files is
stale after one file is deleted (file count 1 vs 2 records), and the
cached load with that blob returns the fresh rebuild of the reduced
folder. -/
theorem cache_count_validation_witness :
    numCovmatFiles [⟨"d", [⟨"a.covmat", some "# x y\n"⟩]⟩] ≠
      (buildDatabase [⟨"d", [⟨"a.covmat", some "# x y\n"⟩,
        ⟨"b.covmat", some "# x z\n"⟩]⟩]).length ∧
    get_covmat_database_at_paths [⟨"d", [⟨"a.covmat", some "# x y\n"⟩]⟩]
        none
        (some (buildDatabase [⟨"d", [⟨"a.covmat", some "# x y\n"⟩,
          ⟨"b.covmat", some "# x z\n"⟩]⟩]))
        true =
      buildDatabase [⟨"d", [⟨"a.covmat", some "# x y\n"⟩]⟩] :=
  ⟨by decide,
   (cache_count_validation [⟨"d", [⟨"a.covmat", some "# x y\n"⟩]⟩]
     (buildDatabase [⟨"d", [⟨"a.covmat", some "# x y\n"⟩,
       ⟨"b.covmat", some "# x z\n"⟩]⟩])).1 (by decide)⟩

/-- C8: during a rebuild scan, a file whose first line is `"# a b c\n"`
produces a record with declared params `["a", "b", "c"]` (the remainder
of the stripped first line after the `#` marker, split on whitespace),
and a file whose stripped first line does not start with `#` is excluded
from the database entirely. -/
theorem header_parsing (dir fname : String) :
    buildDatabase [⟨dir, [⟨fname, some "# a b c\n"⟩]⟩] =
      [⟨dir, fname, ["a", "b", "c"]⟩] ∧
    ∀ header : String, (stripChars header.toList).head? ≠ some '#' →
      buildDatabase [⟨dir, [⟨fname, some header⟩]⟩] = [] := by
  constructor
  · rfl
  · intro header h
    have hph : parseHeader header = none := by
      show (if (stripChars header.toList).head? = some '#' then
          some (pySplit ((stripChars header.toList).dropWhile
            (fun c => c == '#')))
        else none) = none
      exact if_neg h
    unfold buildDatabase
    simp [hph]

/-- Witness for C8 at a concrete folder, file name and bad header. -/
theorem header_parsing_witness :
    buildDatabase [⟨"d", [⟨"m.covmat", some "# a b c\n"⟩]⟩] =
      [⟨"d", "m.covmat", ["a", "b", "c"]⟩] ∧
    buildDatabase [⟨"d", [⟨"m.covmat", some "x y z\n"⟩]⟩] = [] :=
  ⟨(header_parsing "d" "m.covmat").1,
   (header_parsing "d" "m.covmat").2 "x y z\n" (by decide)⟩

end AutoCovmat
